import Mathlib

/-!
Verification of the caching and resilience fabric of the availability
aggregator (advanced cache, circuit breaker, request coalescer, rate
limiter, concurrent fan-out helper and the availability query handler).

Each definition is a shallow embedding of the corresponding TypeScript
function; comments name the embedded source symbol.  Values stored in the
cache are modelled in their serialized form (a `String`), so
`JSON.stringify`/`JSON.parse` round-trips become the identity.  Time is in
the unit the source uses at each site (seconds for Redis TTLs, milliseconds
for `Date.now()`-based logic).
-/

namespace ATC

/-! ### KV store (RedisService)

A Redis-like store is an association list from key to
(value, absolute expiry time).  `redisService.set(key, value, ttl)` stores
the value with expiry `now + ttl`; `get` returns the value while the
current time is strictly below the expiry (Redis `EX` semantics). -/

abbrev RedisStore := List (String × String × Nat)

/-- `RedisService.get` at absolute time `now`. -/
def redisGet (s : RedisStore) (now : Nat) (k : String) : Option String :=
  match s.find? (fun e => e.1 == k) with
  | some (_, v, exp) => if now < exp then some v else none
  | none => none

/-- `RedisService.set(key, value, ttl)` executed at absolute time `now`. -/
def redisSet (s : RedisStore) (now : Nat) (k v : String) (ttl : Nat) : RedisStore :=
  (k, v, now + ttl) :: s.filter (fun e => e.1 != k)

/-- `RedisService.del(key)`. -/
def redisDel (s : RedisStore) (k : String) : RedisStore :=
  s.filter (fun e => e.1 != k)

/-! ### AdvancedCacheService -/

/-- The `dataType` argument of `setWithIntelligentTTL`. -/
inductive DataType
  | CLUBS
  | COURTS
  | SLOTS
  | AVAILABILITY
deriving DecidableEq

/-- `TTL_CONFIG` of `AdvancedCacheService` (seconds). -/
def TTL_CONFIG : DataType → Nat
  | .CLUBS => 3600
  | .COURTS => 1800
  | .SLOTS => 300
  | .AVAILABILITY => 180

/-- `STALE_TTL` of `AdvancedCacheService` (seconds). -/
def STALE_TTL : Nat := 7200

/-- Result shape of `getWithFallback`: `{ data, isStale }`. -/
structure FallbackResult where
  data : Option String
  isStale : Bool
deriving DecidableEq

/-- JavaScript truthiness of a `string | null`: `null` and the empty string
are falsy.  (`JSON.stringify` never produces the empty string, so cached
payloads are always truthy.) -/
def truthy (o : Option String) : Option String :=
  match o with
  | some v => if v = "" then none else some v
  | none => none

/-- `AdvancedCacheService.getWithFallback(key, staleKey?)` at time `now`:
fresh hit gives `{data, isStale: false}`, otherwise a stale hit gives
`{data, isStale: true}`, otherwise `{null, false}`. -/
def getWithFallback (s : RedisStore) (now : Nat) (key : String)
    (staleKey : Option String) : FallbackResult :=
  match truthy (redisGet s now key) with
  | some v => ⟨some v, false⟩
  | none =>
    match staleKey with
    | some sk =>
      match truthy (redisGet s now sk) with
      | some v => ⟨some v, true⟩
      | none => ⟨none, false⟩
    | none => ⟨none, false⟩

/-- `AdvancedCacheService.setWithIntelligentTTL(key, data, dataType, staleKey?)`
at time `now`: writes the serialized payload under `key` with
`TTL_CONFIG[dataType]` and, when a stale key is given, the same payload
under it with `STALE_TTL`. -/
def setWithIntelligentTTL (s : RedisStore) (now : Nat) (key data : String)
    (dataType : DataType) (staleKey : Option String) : RedisStore :=
  let s1 := redisSet s now key data (TTL_CONFIG dataType)
  match staleKey with
  | some sk => redisSet s1 now sk data STALE_TTL
  | none => s1

/-- `Array.prototype.join(':')` as used by `generateKey`/`generateStaleKey`. -/
def joinColon : List String → String
  | [] => ""
  | [x] => x
  | x :: xs => x ++ ":" ++ joinColon xs

/-- `AdvancedCacheService.generateKey(type, ...params)`. -/
def generateKey (ty : String) (params : List String) : String :=
  ty ++ ":" ++ joinColon params

/-- `AdvancedCacheService.generateStaleKey(type, ...params)`. -/
def generateStaleKey (ty : String) (params : List String) : String :=
  ty ++ ":stale:" ++ joinColon params

/-! ### Helper lemmas about the store -/

theorem redisGet_set_self (s : RedisStore) (now t : Nat) (k v : String) (ttl : Nat) :
    redisGet (redisSet s now k v ttl) t k =
      if t < now + ttl then some v else none := by
  simp [redisGet, redisSet, List.find?]

theorem find?_filter_ne {β : Type} (s : List (String × β)) (k k' : String) (h : k' ≠ k) :
    (s.filter (fun e => e.1 != k)).find? (fun e => e.1 == k') =
      s.find? (fun e => e.1 == k') := by
  induction s with
  | nil => rfl
  | cons a l ih =>
    by_cases hk : a.1 = k
    · have h2 : (k == k') = false :=
        beq_eq_false_iff_ne.mpr (fun hc => h hc.symm)
      simp [List.filter_cons, List.find?_cons, hk, h2, ih]
    · by_cases hk' : a.1 = k'
      · simp [List.filter_cons, List.find?_cons, hk, hk', h]
      · simp [List.filter_cons, List.find?_cons, hk, hk', ih]

theorem redisGet_set_other (s : RedisStore) (now t : Nat) (k k' v : String)
    (ttl : Nat) (h : k' ≠ k) :
    redisGet (redisSet s now k v ttl) t k' = redisGet s t k' := by
  have hne : (k == k') = false := by
    simp only [beq_eq_false_iff_ne, ne_eq]
    exact fun hc => h hc.symm
  simp [redisGet, redisSet, List.find?, hne, find?_filter_ne s k k' h]

/-- After `setWithIntelligentTTL` with distinct fresh and stale keys, the
fresh key holds the payload until its TTL expires and the stale key holds
the same payload until `STALE_TTL` expires. -/
theorem setIntelligent_reads (s : RedisStore) (t0 : Nat) (k sk v : String)
    (ty : DataType) (hk : k ≠ sk) :
    (∀ t, redisGet (setWithIntelligentTTL s t0 k v ty (some sk)) t k =
        if t < t0 + TTL_CONFIG ty then some v else none) ∧
    (∀ t, redisGet (setWithIntelligentTTL s t0 k v ty (some sk)) t sk =
        if t < t0 + STALE_TTL then some v else none) := by
  constructor
  · intro t
    have h1 := redisGet_set_other (redisSet s t0 k v (TTL_CONFIG ty)) t0 t sk k v STALE_TTL hk
    have h2 := redisGet_set_self s t0 t k v (TTL_CONFIG ty)
    simp only [setWithIntelligentTTL]
    rw [h1, h2]
  · intro t
    have h1 := redisGet_set_self (redisSet s t0 k v (TTL_CONFIG ty)) t0 t sk v STALE_TTL
    simp only [setWithIntelligentTTL]
    rw [h1]

theorem ttl_le_stale (ty : DataType) : TTL_CONFIG ty ≤ STALE_TTL := by
  cases ty <;> simp [TTL_CONFIG, STALE_TTL]

/-! ### Claim C1 -/

/-- **C1.**  For every key `k`, serialized value `v` (non-empty, as every
`JSON.stringify` output is), data type `ty` and distinct stale key `sk`:
after `setWithIntelligentTTL(k, v, ty, sk)` at time `t0`,
`getWithFallback(k, sk)` returns `{v, isStale := false}` at any time while
the fresh entry is live (`t < t0 + TTL_CONFIG ty`), and returns
`{v, isStale := true}` at any time after the fresh TTL has expired but
before `STALE_TTL` (7200 s) has expired, with no intervening write; the
configured TTLs are clubs 3600 s, courts 1800 s, slots 300 s,
availability 180 s. -/
theorem setWithIntelligentTTL_getWithFallback (s : RedisStore) (t0 : Nat)
    (k sk v : String) (ty : DataType) (hv : v ≠ "") (hk : k ≠ sk) :
    (∀ t, t < t0 + TTL_CONFIG ty →
      getWithFallback (setWithIntelligentTTL s t0 k v ty (some sk)) t k (some sk) =
        ⟨some v, false⟩) ∧
    (∀ t, t0 + TTL_CONFIG ty ≤ t → t < t0 + STALE_TTL →
      getWithFallback (setWithIntelligentTTL s t0 k v ty (some sk)) t k (some sk) =
        ⟨some v, true⟩) ∧
    TTL_CONFIG .CLUBS = 3600 ∧ TTL_CONFIG .COURTS = 1800 ∧
    TTL_CONFIG .SLOTS = 300 ∧ TTL_CONFIG .AVAILABILITY = 180 ∧ STALE_TTL = 7200 := by
  obtain ⟨hf, hs⟩ := setIntelligent_reads s t0 k sk v ty hk
  refine ⟨?_, ?_, rfl, rfl, rfl, rfl, rfl⟩
  · intro t ht
    simp [getWithFallback, hf t, ht, truthy, hv]
  · intro t ht1 ht2
    have hdead : ¬ t < t0 + TTL_CONFIG ty := by omega
    simp [getWithFallback, hf t, hs t, hdead, ht2, truthy, hv]

/-- Witness for C1 at a concrete input. -/
theorem setWithIntelligentTTL_getWithFallback_witness :
    getWithFallback
        (setWithIntelligentTTL [] 0 "clubs:p" "[1]" .CLUBS (some "clubs:stale:p"))
        10 "clubs:p" (some "clubs:stale:p") = ⟨some "[1]", false⟩ ∧
    getWithFallback
        (setWithIntelligentTTL [] 0 "clubs:p" "[1]" .CLUBS (some "clubs:stale:p"))
        5000 "clubs:p" (some "clubs:stale:p") = ⟨some "[1]", true⟩ := by
  have h := setWithIntelligentTTL_getWithFallback [] 0 "clubs:p" "clubs:stale:p"
    "[1]" .CLUBS (by decide) (by decide)
  exact ⟨h.1 10 (by decide), h.2.1 5000 (by decide) (by decide)⟩

/-! ### CircuitBreakerService

State machine of `circuit-breaker.service.ts`.  `cbExecute` embeds one call
of `execute(operation, fallback?)`: `now` is `Date.now()` in milliseconds,
`opSucceeds` tells whether `operation()` would resolve, `hasFallback`
whether a fallback was supplied.  The result records the new breaker state,
whether the primary operation was invoked, and which outcome the caller
observes. -/

inductive CBState
  | CLOSED
  | OPEN
  | HALF_OPEN
deriving DecidableEq

structure Breaker where
  state : CBState
  failureCount : Nat
  lastFailureTime : Nat
deriving DecidableEq

/-- `FAILURE_THRESHOLD` — consecutive failures that open the breaker. -/
def FAILURE_THRESHOLD : Nat := 5

/-- `TIMEOUT` — milliseconds in OPEN before a recovery attempt. -/
def CB_TIMEOUT : Nat := 60000

/-- `SUCCESS_THRESHOLD` — declared in the source ("Éxitos para cerrar")
but never consulted by its logic. -/
def SUCCESS_THRESHOLD : Nat := 3

/-- Freshly constructed `CircuitBreakerService`. -/
def cbInit : Breaker := ⟨.CLOSED, 0, 0⟩

/-- `onSuccess`: zero `failureCount`; close the breaker when HALF_OPEN. -/
def onSuccess (b : Breaker) : Breaker :=
  let b1 : Breaker := { b with failureCount := 0 }
  if b1.state = .HALF_OPEN then { b1 with state := .CLOSED } else b1

/-- `onFailure` at time `now`: bump `failureCount`, record the failure
time, open the breaker once the threshold is reached. -/
def onFailure (b : Breaker) (now : Nat) : Breaker :=
  let b1 : Breaker := { b with failureCount := b.failureCount + 1, lastFailureTime := now }
  if FAILURE_THRESHOLD ≤ b1.failureCount then { b1 with state := .OPEN } else b1

/-- `shouldAttemptReset`: `Date.now() - lastFailureTime >= TIMEOUT`. -/
def shouldAttemptReset (b : Breaker) (now : Nat) : Bool :=
  CB_TIMEOUT ≤ now - b.lastFailureTime

/-- What the caller of `execute` observes. -/
inductive ExecOutcome
  | opResult
  | fallbackResult
  | breakerOpenError
  | opError
deriving DecidableEq

structure ExecResult where
  breaker : Breaker
  primaryInvoked : Bool
  outcome : ExecOutcome
deriving DecidableEq

/-- `CircuitBreakerService.execute(operation, fallback?)` at time `now`. -/
def cbExecute (b : Breaker) (now : Nat) (opSucceeds hasFallback : Bool) : ExecResult :=
  let go : Breaker → ExecResult := fun b1 =>
    if opSucceeds then ⟨onSuccess b1, true, .opResult⟩
    else if hasFallback then ⟨onFailure b1 now, true, .fallbackResult⟩
    else ⟨onFailure b1 now, true, .opError⟩
  if b.state = .OPEN then
    if shouldAttemptReset b now then go { b with state := .HALF_OPEN }
    else if hasFallback then ⟨b, false, .fallbackResult⟩
    else ⟨b, false, .breakerOpenError⟩
  else go b

/-- A run of `execute` calls whose operations all fail, at the given
times, with a fallback supplied. -/
def cbRunFailures (b : Breaker) (ts : List Nat) : Breaker :=
  ts.foldl (fun b1 t => (cbExecute b1 t false true).breaker) b

/-! ### Breaker helper lemmas -/

/-- Progress measure for a failure run: after `n` failing calls the
breaker is still CLOSED with `failureCount = n` (while `n < 5`), and OPEN
with `failureCount ≥ 5` afterwards. -/
def cbGood (n : Nat) (b : Breaker) : Prop :=
  if n < FAILURE_THRESHOLD then b.state = .CLOSED ∧ b.failureCount = n
  else b.state = .OPEN ∧ FAILURE_THRESHOLD ≤ b.failureCount

theorem cbGood_step (n : Nat) (b : Breaker) (t : Nat) (h : cbGood n b) :
    cbGood (n + 1) (cbExecute b t false true).breaker := by
  by_cases hn : n + 1 < FAILURE_THRESHOLD
  · have hn' : n < FAILURE_THRESHOLD := by omega
    rw [cbGood, if_pos hn'] at h
    obtain ⟨hst, hcnt⟩ := h
    rw [cbGood, if_pos hn]
    have hth : ¬ FAILURE_THRESHOLD ≤ n + 1 := by omega
    simp [cbExecute, onFailure, hst, hcnt, hth]
  · by_cases hn' : n < FAILURE_THRESHOLD
    · rw [cbGood, if_pos hn'] at h
      obtain ⟨hst, hcnt⟩ := h
      rw [cbGood, if_neg hn]
      have hth : FAILURE_THRESHOLD ≤ n + 1 := by omega
      simp [cbExecute, onFailure, hst, hcnt, hth]
    · rw [cbGood, if_neg hn'] at h
      obtain ⟨hst, hcnt⟩ := h
      rw [cbGood, if_neg hn]
      by_cases hr : shouldAttemptReset b t = true
      · have hth : FAILURE_THRESHOLD ≤ b.failureCount + 1 := by omega
        simp [cbExecute, hst, hr, onFailure, hth]
      · simp [cbExecute, hst, hr]
        exact hcnt

theorem cbGood_run (b : Breaker) (ts : List Nat) (n : Nat) (h : cbGood n b) :
    cbGood (n + ts.length) (cbRunFailures b ts) := by
  induction ts generalizing b n with
  | nil => simpa [cbRunFailures] using h
  | cons t ts ih =>
    have h1 := cbGood_step n b t h
    have h2 := ih _ _ h1
    simpa [cbRunFailures, Nat.add_comm, Nat.add_assoc, Nat.add_left_comm] using h2

/-! ### Claim C4 -/

/-- **C4.**  Starting from any CLOSED breaker with `failureCount = 0`, a
run of `N ≥ FAILURE_THRESHOLD = 5` consecutive failing calls
(uninterrupted by a success) leaves the breaker OPEN; and while the
breaker is OPEN and less than `TIMEOUT = 60000` ms have elapsed since the
last failure, `execute` never invokes the primary operation: the caller
gets the fallback outcome when a fallback was supplied and the
breaker-open error otherwise, with the breaker state unchanged. -/
theorem breaker_opens_and_suppresses :
    (∀ (b0 : Breaker) (ts : List Nat), b0.state = .CLOSED → b0.failureCount = 0 →
      FAILURE_THRESHOLD ≤ ts.length → (cbRunFailures b0 ts).state = .OPEN) ∧
    (∀ (b : Breaker) (now : Nat) (op fb : Bool),
      b.state = .OPEN → now - b.lastFailureTime < CB_TIMEOUT →
      (cbExecute b now op fb).primaryInvoked = false ∧
      (cbExecute b now op fb).outcome =
        (if fb then .fallbackResult else .breakerOpenError) ∧
      (cbExecute b now op fb).breaker = b) ∧
    FAILURE_THRESHOLD = 5 ∧ CB_TIMEOUT = 60000 := by
  refine ⟨?_, ?_, rfl, rfl⟩
  · intro b0 ts h1 h2 h3
    have h0 : cbGood 0 b0 := by
      rw [cbGood, if_pos (by norm_num [FAILURE_THRESHOLD])]
      exact ⟨h1, h2⟩
    have h4 := cbGood_run b0 ts 0 h0
    rw [cbGood, if_neg (by omega)] at h4
    exact h4.1
  · intro b now op fb hOpen hTime
    have hr : shouldAttemptReset b now = false := by
      simp only [shouldAttemptReset, decide_eq_false_iff_not, not_le]
      exact hTime
    cases fb <;> simp [cbExecute, hOpen, hr]

/-- Witness for C4 at a concrete input. -/
theorem breaker_opens_and_suppresses_witness :
    (cbRunFailures cbInit [1, 2, 3, 4, 5]).state = .OPEN ∧
    (cbExecute ⟨.OPEN, 5, 5⟩ 59000 true true).primaryInvoked = false ∧
    (cbExecute ⟨.OPEN, 5, 5⟩ 59000 true false).outcome = .breakerOpenError := by
  have h := breaker_opens_and_suppresses
  refine ⟨h.1 cbInit [1, 2, 3, 4, 5] (by decide) (by decide) (by decide), ?_, ?_⟩
  · exact (h.2.1 ⟨.OPEN, 5, 5⟩ 59000 true true (by decide) (by decide)).1
  · exact (h.2.1 ⟨.OPEN, 5, 5⟩ 59000 true false (by decide) (by decide)).2.1

/-! ### Claim C3 -/

/-- **C3** fails on the code: `SUCCESS_THRESHOLD = 3` is declared but
never consulted; `onSuccess` closes a HALF_OPEN breaker on the very first
successful primary execution.  Concretely: open the breaker with five
failures at time 0, wait out the 60 s timeout, and run one successful
call at time 60000 — the call goes through HALF_OPEN and the breaker is
already CLOSED (with `failureCount = 0`) after this single success,
contradicting "after fewer than 3 successes in HALF_OPEN the breaker is
not yet CLOSED". -/
theorem breaker_closes_after_single_success :
    (cbRunFailures cbInit [0, 0, 0, 0, 0]).state = .OPEN ∧
    shouldAttemptReset (cbRunFailures cbInit [0, 0, 0, 0, 0]) 60000 = true ∧
    (cbExecute (cbRunFailures cbInit [0, 0, 0, 0, 0]) 60000 true true).primaryInvoked
      = true ∧
    (cbExecute (cbRunFailures cbInit [0, 0, 0, 0, 0]) 60000 true true).breaker
      = ⟨.CLOSED, 0, 0⟩ ∧
    SUCCESS_THRESHOLD = 3 := by
  decide

/-! ### Claim C10 -/

/-- **C10.**  Whenever `execute` actually invokes the primary operation
(the CLOSED and HALF_OPEN cases, including the OPEN-after-timeout trial)
and the operation succeeds, the resulting `failureCount` is 0.
Consequently failures separated by a success never accumulate: after a
successful call through a CLOSED breaker, any run of fewer than
`FAILURE_THRESHOLD` failures leaves the breaker CLOSED. -/
theorem breaker_success_resets_failureCount :
    (∀ (b : Breaker) (now : Nat) (fb : Bool),
      (cbExecute b now true fb).primaryInvoked = true →
      (cbExecute b now true fb).breaker.failureCount = 0) ∧
    (∀ (b : Breaker) (now : Nat) (fb : Bool) (ts : List Nat),
      b.state = .CLOSED → ts.length < FAILURE_THRESHOLD →
      (cbRunFailures (cbExecute b now true fb).breaker ts).state = .CLOSED) := by
  constructor
  · intro b now fb hp
    by_cases hOpen : b.state = .OPEN
    · by_cases hr : shouldAttemptReset b now = true
      · simp [cbExecute, hOpen, hr, onSuccess]
      · exfalso
        cases fb <;> simp [cbExecute, hOpen, hr] at hp
    · simp [cbExecute, hOpen, onSuccess]
      split <;> rfl
  · intro b now fb ts hClosed hLen
    have hsucc : (cbExecute b now true fb).breaker = ⟨.CLOSED, 0, b.lastFailureTime⟩ := by
      have hOpen : ¬ b.state = .OPEN := by simp [hClosed]
      simp [cbExecute, hOpen, onSuccess, hClosed]
    rw [hsucc]
    have h0 : cbGood 0 (⟨.CLOSED, 0, b.lastFailureTime⟩ : Breaker) := by
      rw [cbGood, if_pos (by norm_num [FAILURE_THRESHOLD])]
      exact ⟨rfl, rfl⟩
    have h4 := cbGood_run _ ts 0 h0
    rw [cbGood, if_pos (by omega)] at h4
    exact h4.1

/-- Witness for C10 at a concrete input. -/
theorem breaker_success_resets_failureCount_witness :
    (cbExecute ⟨.CLOSED, 4, 7⟩ 100 true true).breaker.failureCount = 0 ∧
    (cbRunFailures (cbExecute ⟨.CLOSED, 4, 7⟩ 100 true true).breaker
      [200, 300, 400, 500]).state = .CLOSED := by
  have h := breaker_success_resets_failureCount
  exact ⟨h.1 ⟨.CLOSED, 4, 7⟩ 100 true (by decide),
    h.2 ⟨.CLOSED, 4, 7⟩ 100 true [200, 300, 400, 500] (by decide) (by decide)⟩

/-! ### RequestBatcherService.executeBatched (request coalescer)

The JavaScript event loop runs the synchronous prefix of `executeBatched`
(the `pendingRequests.has` check and, on a miss, the registration of the
new promise and the invocation of `requestFn`) without interleaving, so a
trace of concurrent callers is a sequence of atomic steps: `start c k` is
caller `c` entering `executeBatched(k, fetch)`, and `settle k` is the
`finally` block of the call that created `k`'s entry removing it after the
shared promise settled.  Futures are numbered; a future settles with a
single outcome, so callers holding the same future id observe the same
value or error. -/

structure CoState where
  pending : List (String × Nat)
  nextId : Nat
  fetches : List String
  assigned : List (Nat × Nat)
deriving DecidableEq

/-- `pendingRequests.get(key)` (as a future id). -/
def coLookup (s : CoState) (k : String) : Option Nat :=
  match s.pending.find? (fun e => e.1 == k) with
  | some e => some e.2
  | none => none

/-- The synchronous prefix of `executeBatched(key, requestFn)` run by
caller `c`: reuse the pending promise when one exists, else register a
fresh promise and invoke `requestFn` once. -/
def coStart (s : CoState) (c : Nat) (k : String) : CoState :=
  match s.pending.find? (fun e => e.1 == k) with
  | some e => { s with assigned := (c, e.2) :: s.assigned }
  | none =>
      { pending := (k, s.nextId) :: s.pending
        nextId := s.nextId + 1
        fetches := k :: s.fetches
        assigned := (c, s.nextId) :: s.assigned }

/-- The `finally` block: `pendingRequests.delete(key)` once the shared
promise has settled. -/
def coSettle (s : CoState) (k : String) : CoState :=
  { s with pending := s.pending.filter (fun e => e.1 != k) }

inductive CoEvent
  | start (c : Nat) (k : String)
  | settle (k : String)
deriving DecidableEq

def coStep (s : CoState) : CoEvent → CoState
  | .start c k => coStart s c k
  | .settle k => coSettle s k

def coRun (s : CoState) (es : List CoEvent) : CoState :=
  es.foldl coStep s

/-- Number of invocations of the underlying `requestFn` for key `k`. -/
def coFetchCount (s : CoState) (k : String) : Nat :=
  s.fetches.count k

/-! ### Coalescer helper lemmas -/

theorem coLookup_settle_self (s : CoState) (k : String) :
    coLookup (coSettle s k) k = none := by
  simp only [coLookup, coSettle]
  induction s.pending with
  | nil => rfl
  | cons a l ih =>
    by_cases hk : a.1 = k
    · simpa [List.filter_cons, hk] using ih
    · simpa [List.filter_cons, List.find?_cons, hk] using ih

theorem coStep_preserves (s : CoState) (k : String) (f : Nat) (e : CoEvent)
    (hf : coLookup s k = some f) (he : e ≠ .settle k) :
    coLookup (coStep s e) k = some f ∧
    coFetchCount (coStep s e) k = coFetchCount s k := by
  cases e with
  | start c k0 =>
    simp only [coStep, coStart]
    cases hfind : s.pending.find? (fun e => e.1 == k0) with
    | some e0 => exact ⟨hf, rfl⟩
    | none =>
      have hk0 : k0 ≠ k := by
        intro heq
        rw [heq] at hfind
        simp [coLookup, hfind] at hf
      constructor
      · simpa [coLookup, List.find?_cons, beq_eq_false_iff_ne.mpr hk0] using hf
      · simp [coFetchCount, List.count_cons, hk0]
  | settle k0 =>
    have hk0 : k ≠ k0 := by
      intro heq
      exact he (by rw [heq])
    constructor
    · have hfil := find?_filter_ne s.pending k0 k hk0
      simp only [coStep, coSettle, coLookup] at hf ⊢
      rw [hfil]
      exact hf
    · rfl

theorem coStep_assigned_mono (s : CoState) (e : CoEvent) (x : Nat × Nat)
    (h : x ∈ s.assigned) : x ∈ (coStep s e).assigned := by
  cases e with
  | start c k0 =>
    simp only [coStep, coStart]
    cases s.pending.find? (fun e => e.1 == k0) <;> simp [h]
  | settle k0 => exact h

theorem coRun_assigned_mono (s : CoState) (es : List CoEvent) (x : Nat × Nat)
    (h : x ∈ s.assigned) : x ∈ (coRun s es).assigned := by
  induction es generalizing s with
  | nil => exact h
  | cons e es ih => exact ih (coStep s e) (coStep_assigned_mono s e x h)

theorem coStart_joins (s : CoState) (c : Nat) (k : String) (f : Nat)
    (hf : coLookup s k = some f) : (c, f) ∈ (coStart s c k).assigned := by
  simp only [coStart]
  cases hfind : s.pending.find? (fun e => e.1 == k) with
  | some e0 =>
    have : e0.2 = f := by simpa [coLookup, hfind] using hf
    simp [this]
  | none => simp [coLookup, hfind] at hf

/-- Core induction: while `k`'s entry is in flight and the trace contains
no settle for `k`, the entry, the fetch count for `k`, and the future all
the trace's starters of `k` attach to are preserved. -/
theorem coRun_inflight (s : CoState) (k : String) (f : Nat) (es : List CoEvent)
    (hf : coLookup s k = some f) (hs : ∀ e ∈ es, e ≠ CoEvent.settle k) :
    coLookup (coRun s es) k = some f ∧
    coFetchCount (coRun s es) k = coFetchCount s k ∧
    (∀ c, CoEvent.start c k ∈ es → (c, f) ∈ (coRun s es).assigned) := by
  induction es generalizing s with
  | nil =>
    refine ⟨hf, rfl, ?_⟩
    intro c hc
    simp at hc
  | cons e es ih =>
    have he : e ≠ CoEvent.settle k := hs e (List.mem_cons_self e es)
    have hs' : ∀ e' ∈ es, e' ≠ CoEvent.settle k :=
      fun e' h' => hs e' (List.mem_cons_of_mem e h')
    obtain ⟨h1, h2⟩ := coStep_preserves s k f e hf he
    obtain ⟨ih1, ih2, ih3⟩ := ih (coStep s e) h1 hs'
    refine ⟨ih1, by rw [coRun, List.foldl_cons] at *; rw [ih2, h2], ?_⟩
    intro c hc
    rcases List.mem_cons.mp hc with hc | hc
    · have hj : (c, f) ∈ (coStep s e).assigned := by
        rw [← hc]
        exact coStart_joins s c k f hf
      exact coRun_assigned_mono (coStep s e) es (c, f) hj
    · exact ih3 c hc

/-- A start against a key with no in-flight entry registers a fresh future
and invokes `requestFn` exactly once. -/
theorem coStart_creates (s0 : CoState) (c : Nat) (k : String)
    (h : coLookup s0 k = none) :
    coFetchCount (coStart s0 c k) k = coFetchCount s0 k + 1 ∧
    coLookup (coStart s0 c k) k = some s0.nextId ∧
    (c, s0.nextId) ∈ (coStart s0 c k).assigned := by
  have hfind : s0.pending.find? (fun e => e.1 == k) = none := by
    cases hfind : s0.pending.find? (fun e => e.1 == k) with
    | some e0 => simp [coLookup, hfind] at h
    | none => rfl
  refine ⟨?_, ?_, ?_⟩ <;>
    simp [coStart, hfind, coFetchCount, coLookup, List.count_cons, List.find?_cons]

/-! ### Claim C2 -/

/-- **C2.**  As long as key `k` has an in-flight future `f` (no `settle k`
occurs in the trace), any number of interleaved callers and operations on
other keys leave `k`'s entry pointing at the same future `f`, invoke the
underlying `requestFn` for `k` zero further times, and every caller that
starts `executeBatched` for `k` in the trace is attached to that same
future `f` (hence observes its single outcome, value or error).
Moreover a start for a key with no in-flight entry invokes `requestFn`
exactly once and registers the fresh future, and the settle step removes
the entry, so a later call re-invokes the fetch. -/
theorem executeBatched_coalesces (s : CoState) (k : String) (f : Nat)
    (es : List CoEvent) (hf : coLookup s k = some f)
    (hs : ∀ e ∈ es, e ≠ CoEvent.settle k) :
    coLookup (coRun s es) k = some f ∧
    coFetchCount (coRun s es) k = coFetchCount s k ∧
    (∀ c, CoEvent.start c k ∈ es → (c, f) ∈ (coRun s es).assigned) ∧
    (∀ (s0 : CoState) (c : Nat), coLookup s0 k = none →
      coFetchCount (coStart s0 c k) k = coFetchCount s0 k + 1 ∧
      coLookup (coStart s0 c k) k = some s0.nextId ∧
      (c, s0.nextId) ∈ (coStart s0 c k).assigned) ∧
    (∀ s0 : CoState, coLookup (coSettle s0 k) k = none) := by
  obtain ⟨h1, h2, h3⟩ := coRun_inflight s k f es hf hs
  exact ⟨h1, h2, h3, fun s0 c h => coStart_creates s0 c k h,
    fun s0 => coLookup_settle_self s0 k⟩

/-- Witness for C2 at a concrete input: caller 9 created the entry for
`"clubs:p"` (future 0); callers 1 and 3 join it while caller 2 works on a
different key which also settles in between. -/
theorem executeBatched_coalesces_witness :
    coLookup (coRun ⟨[("clubs:p", 0)], 1, ["clubs:p"], [(9, 0)]⟩
      [.start 1 "clubs:p", .start 2 "courts:7", .settle "courts:7",
       .start 3 "clubs:p"]) "clubs:p" = some 0 ∧
    coFetchCount (coRun ⟨[("clubs:p", 0)], 1, ["clubs:p"], [(9, 0)]⟩
      [.start 1 "clubs:p", .start 2 "courts:7", .settle "courts:7",
       .start 3 "clubs:p"]) "clubs:p" = 1 ∧
    (3, 0) ∈ (coRun ⟨[("clubs:p", 0)], 1, ["clubs:p"], [(9, 0)]⟩
      [.start 1 "clubs:p", .start 2 "courts:7", .settle "courts:7",
       .start 3 "clubs:p"]).assigned := by
  have h := executeBatched_coalesces ⟨[("clubs:p", 0)], 1, ["clubs:p"], [(9, 0)]⟩
    "clubs:p" 0
    [.start 1 "clubs:p", .start 2 "courts:7", .settle "courts:7", .start 3 "clubs:p"]
    (by decide) (by decide)
  exact ⟨h.1, h.2.1, h.2.2.1 3 (by decide)⟩

/-! ### checkRateLimit (HTTPAlquilaTuCanchaClient)

`checkRateLimit` runs synchronously up to its only await (the
`setTimeout` sleep taken when the window counter is full), so a trace of
concurrent callers is a sequence of atomic steps: `entry t` is a caller
reaching `checkRateLimit` at `Date.now() = t`; `wake t` is a caller whose
sleep timer fires at `t` resuming after the wait (it then resets the
counter, stamps the window, and admits itself — the source re-checks
nothing after the sleep).  A simulation is valid when event times are
nondecreasing and every wake corresponds to a sleep scheduled for exactly
that time. -/

/-- `RATE_LIMIT` of the HTTP client. -/
def RATE_LIMIT : Nat := 60

/-- `RATE_WINDOW` of the HTTP client (milliseconds). -/
def RATE_WINDOW : Nat := 60000

structure RLState where
  requestCount : Nat
  lastResetTime : Nat
deriving DecidableEq

inductive RLEvent
  | entry (t : Nat)
  | wake (t : Nat)
deriving DecidableEq

structure RLSim where
  st : RLState
  pendingWakes : List Nat
  admitted : List Nat
  lastTime : Nat
  valid : Bool
deriving DecidableEq

/-- Client construction: `requestCount = 0`, `lastResetTime = Date.now()`,
taken to be time 0. -/
def rlInit : RLSim := ⟨⟨0, 0⟩, [], [], 0, true⟩

/-- One atomic step of `checkRateLimit`.  `entry t`: reset the window if
it elapsed; if the counter is full, schedule a wake at the window
boundary `lastResetTime + RATE_WINDOW`, else count and admit.  `wake t`:
the resumed sleeper sets `requestCount = 0`, `lastResetTime = Date.now()`,
then increments the counter and proceeds (it is admitted). -/
def rlStep (s : RLSim) : RLEvent → RLSim
  | .entry t =>
    if s.valid = false ∨ t < s.lastTime then { s with valid := false }
    else
      let st := if RATE_WINDOW ≤ t - s.st.lastResetTime then ⟨0, t⟩ else s.st
      if RATE_LIMIT ≤ st.requestCount then
        { s with st := st,
                 pendingWakes := s.pendingWakes ++ [st.lastResetTime + RATE_WINDOW],
                 lastTime := t }
      else
        { s with st := ⟨st.requestCount + 1, st.lastResetTime⟩,
                 admitted := s.admitted ++ [t], lastTime := t }
  | .wake t =>
    if s.valid = false ∨ t < s.lastTime ∨ ¬ s.pendingWakes.contains t then
      { s with valid := false }
    else
      { st := ⟨1, t⟩, pendingWakes := s.pendingWakes.erase t,
        admitted := s.admitted ++ [t], lastTime := t, valid := true }

def rlRun (s : RLSim) (es : List RLEvent) : RLSim :=
  es.foldl rlStep s

/-- Admissions whose timestamps fall in the half-open window `[lo, hi)`. -/
def rlAdmittedIn (s : RLSim) (lo hi : Nat) : Nat :=
  (s.admitted.filter (fun t => decide (lo ≤ t ∧ t < hi))).length

/-- The schedule that breaks the limiter: 60 admissions at `t = 0` fill
the window; two more callers at `t = 0` sleep until the boundary; both
wake at `t = 60000` and each resets the counter before admitting itself,
erasing the other's admission from the count; 59 fresh callers at
`t = 60001` then also get through — 61 admissions in `[60000, 120000)`. -/
def rlBreakingTrace : List RLEvent :=
  List.replicate 62 (.entry 0) ++ [.wake 60000, .wake 60000] ++
    List.replicate 59 (.entry 60001)

/-! ### Claim C5 -/

set_option maxRecDepth 100000 in
/-- **C5** fails on the code: under concurrent callers the post-sleep
branch of `checkRateLimit` resets `requestCount` without re-checking the
limit, so several sleepers waking at the same window boundary each zero
the shared counter.  The valid schedule `rlBreakingTrace` admits 61 calls
inside the single window `[60000, 120000)`, exceeding
`RATE_LIMIT = 60`. -/
theorem checkRateLimit_window_overflow :
    (rlRun rlInit rlBreakingTrace).valid = true ∧
    rlAdmittedIn (rlRun rlInit rlBreakingTrace) 60000 120000 = 61 ∧
    RATE_LIMIT = 60 ∧ RATE_WINDOW = 60000 := by
  decide

/-! ### RequestBatcherService.executeConcurrent

Deterministic simulation of `executeConcurrent(requests, maxConcurrency)`
under the standard promise semantics: task `i` is started synchronously at
the current virtual time and its promise settles `dur` later, fulfilling
iff `ok`.  When the in-flight list reaches `maxConcurrency` the source
awaits `Promise.race(executing)` — the earliest-settling promise; if that
promise rejected the race `await` throws and `executeConcurrent` rejects.
Otherwise the source's inner cleanup loop awaits every in-flight promise
(wrapping each `await` in try/catch, so rejections observed there are
swallowed) and empties `executing`.  After the last task, the source
awaits `Promise.all(executing)`, which rejects with the earliest rejection
among the remaining promises, if any.  `results[i] = result` runs in the
fulfilled promise's `.then` continuation, so a swallowed rejection leaves
a hole (`none`) at its index. -/

structure ECTask where
  dur : Nat
  ok : Bool
deriving DecidableEq

structure ECState where
  time : Nat
  executing : List (Nat × Nat × Bool)
  results : List (Option Nat)
  started : List (Nat × Nat)
deriving DecidableEq

/-- The cleanup loop (`for j = executing.length - 1 … 0`): await each
in-flight promise, record fulfilled results, swallow rejections, and
splice everything out. -/
def ecDrain (s : ECState) : ECState :=
  s.executing.reverse.foldl
    (fun st e =>
      { st with time := max st.time e.2.1,
                results := if e.2.2 then st.results.set e.1 (some e.1) else st.results })
    { s with executing := [] }

/-- `Promise.race`: the earliest-settling promise (first in registration
order on a tie). -/
def ecRace : List (Nat × Nat × Bool) → Option (Nat × Nat × Bool)
  | [] => none
  | e :: es =>
    match ecRace es with
    | none => some e
    | some b => if b.2.1 < e.2.1 then some b else some e

/-- The first rejection `Promise.all` would observe among the given
promises. -/
def ecFirstRejection (l : List (Nat × Nat × Bool)) : Option (Nat × Nat × Bool) :=
  ecRace (l.filter (fun e => !e.2.2))

/-- The loop of `executeConcurrent` over the remaining tasks; returns the
final state and `some i` when the call rejects with task `i`'s error. -/
def ecGo (k : Nat) : ECState → Nat → List ECTask → ECState × Option Nat
  | s, _, [] =>
    match ecFirstRejection s.executing with
    | some e => ({ s with time := max s.time e.2.1 }, some e.1)
    | none => (ecDrain s, none)
  | s, i, t :: rest =>
    let settle := s.time + t.dur
    let s1 : ECState :=
      { s with executing := s.executing ++ [(i, settle, t.ok)],
               started := s.started ++ [(i, s.time)] }
    if k ≤ s1.executing.length then
      match ecRace s1.executing with
      | some m =>
        if m.2.2 then ecGo k (ecDrain { s1 with time := max s1.time m.2.1 }) (i + 1) rest
        else ({ s1 with time := max s1.time m.2.1 }, some m.1)
      | none => ecGo k s1 (i + 1) rest
    else ecGo k s1 (i + 1) rest

/-- `RequestBatcherService.executeConcurrent(requests, maxConcurrency)`. -/
def executeConcurrent (tasks : List ECTask) (k : Nat) : ECState × Option Nat :=
  ecGo k ⟨0, [], List.replicate tasks.length none, []⟩ 0 tasks

/-! ### Claim C8 -/

/-- **C8** fails on the code: with tasks `[1 ms ok, 2 ms fail, 1 ms ok]`
and `maxConcurrency = 2`, the failing promise loses the race (won by the
fulfilled 1 ms task), its rejection is observed inside the cleanup loop's
try/catch and swallowed, task 2 — not yet started when the failure
settled at `t = 2` — is still started (at `t = 2`), and the call fulfils
with a hole (`undefined`) at index 1 instead of rejecting.  The failure
only propagates in the branch the repo's unit test exercises (fewer tasks
than the concurrency bound, where the final `Promise.all` sees the
rejected promise), as the last conjunct shows. -/
theorem executeConcurrent_swallows_failure :
    (executeConcurrent [⟨1, true⟩, ⟨2, false⟩, ⟨1, true⟩] 2).2 = none ∧
    (executeConcurrent [⟨1, true⟩, ⟨2, false⟩, ⟨1, true⟩] 2).1.results =
      [some 0, none, some 2] ∧
    (2, 2) ∈ (executeConcurrent [⟨1, true⟩, ⟨2, false⟩, ⟨1, true⟩] 2).1.started ∧
    (executeConcurrent [⟨1, true⟩, ⟨1, false⟩, ⟨1, true⟩] 5).2 = some 1 := by
  decide

/-! ### AdvancedCacheService.invalidateByPattern -/

/-- `getKeysByPattern`: the source's hard-coded `commonPatterns` table —
it never consults the backing store, and any pattern outside the four
listed wildcards (in particular every literal key) yields `[]`. -/
def getKeysByPattern (pattern : String) : List String :=
  if pattern = "clubs:*" then
    ["clubs:ChIJoYUAHyvmopUR4xJzVPBE_Lw", "clubs:ChIJW9fXNZNTtpURV6VYAumGQOw"]
  else if pattern = "courts:*" then []
  else if pattern = "slots:*" then []
  else if pattern = "availability:*" then []
  else []

/-- `AdvancedCacheService.invalidateByPattern(pattern)`: delete each key
returned by `getKeysByPattern`. -/
def invalidateByPattern (s : RedisStore) (pattern : String) : RedisStore :=
  (getKeysByPattern pattern).foldl (fun st k => redisDel st k) s

/-! ### Claim C6 -/

/-- **C6** fails on the code: `getKeysByPattern` ignores the backing
store, so `invalidateByPattern` invoked with a literal key that is
present deletes nothing — the key is still readable afterwards — and even
the `availability:*` wildcard maps to the empty list, so it deletes
nothing either. -/
theorem invalidateByPattern_misses_present_key :
    getKeysByPattern "availability:P:2024-06-01" = [] ∧
    invalidateByPattern [("availability:P:2024-06-01", "[1]", 100)]
        "availability:P:2024-06-01" =
      [("availability:P:2024-06-01", "[1]", 100)] ∧
    redisGet
        (invalidateByPattern [("availability:P:2024-06-01", "[1]", 100)]
          "availability:P:2024-06-01")
        0 "availability:P:2024-06-01" = some "[1]" ∧
    invalidateByPattern [("availability:P:2024-06-01", "[1]", 100)]
        "availability:*" =
      [("availability:P:2024-06-01", "[1]", 100)] := by
  decide

/-! ### GetAvailabilityHandler

`execute(query)` for `(placeId, date)`.  `dateStr` stands for
`date.toISOString().split('T')[0]` (the `yyyy-mm-dd` day).  The upstream
fan-out (`fetchOptimizedAvailability`) is abstracted to an
`Except Unit String` argument: `.ok tree` is the serialized assembled
availability tree, `.error ()` any thrown error on the fetch path.  The
returned triple is (what the caller observes, the store after the call,
whether the upstream fetch path was entered).  `getFallbackAvailability`
reads the stale key directly (passing it as the fresh key, with no stale
parameter) and maps a total miss to the serialized empty array. -/

/-- The serialized empty availability tree (`[]`). -/
def emptyAvailability : String := "[]"

/-- `GetAvailabilityHandler.execute` at time `now`. -/
def handlerExecute (s : RedisStore) (now : Nat) (placeId dateStr : String)
    (upstream : Except Unit String) : Except Unit String × RedisStore × Bool :=
  let cacheKey := generateKey "availability" [placeId, dateStr]
  let staleKey := generateStaleKey "availability" [placeId, dateStr]
  match (getWithFallback s now cacheKey (some staleKey)).data with
  | some d => (.ok d, s, false)
  | none =>
    match upstream with
    | .ok tree =>
      (.ok tree, setWithIntelligentTTL s now cacheKey tree .AVAILABILITY (some staleKey),
        true)
    | .error _ =>
      match (getWithFallback s now staleKey none).data with
      | some d => (.ok d, s, true)
      | none => (.ok emptyAvailability, s, true)

/-! ### Handler helper lemmas -/

theorem generateKey_ne_generateStaleKey (ty : String) (ps : List String) :
    generateKey ty ps ≠ generateStaleKey ty ps := by
  intro h
  have hlen := congrArg String.length h
  have h1 : (":" : String).length = 1 := rfl
  have h2 : (":stale:" : String).length = 7 := rfl
  simp only [generateKey, generateStaleKey, String.length_append, h1, h2] at hlen
  omega

/-! ### Claim C7 -/

/-- **C7.**  The query handler's `execute` never propagates an error: for
every store, time, query and upstream behaviour the observed result is
`.ok`; and when the upstream fetch path fails while neither the fresh
composite entry nor its stale mirror holds data, the result is the
serialized empty availability tree. -/
theorem handlerExecute_never_fails (s : RedisStore) (now : Nat)
    (placeId dateStr : String) (upstream : Except Unit String) :
    (∃ v, (handlerExecute s now placeId dateStr upstream).1 = Except.ok v) ∧
    (redisGet s now (generateKey "availability" [placeId, dateStr]) = none →
      redisGet s now (generateStaleKey "availability" [placeId, dateStr]) = none →
      (handlerExecute s now placeId dateStr (.error ())).1 =
        Except.ok emptyAvailability) := by
  constructor
  · unfold handlerExecute
    cases hd : (getWithFallback s now (generateKey "availability" [placeId, dateStr])
        (some (generateStaleKey "availability" [placeId, dateStr]))).data with
    | some d => exact ⟨d, by simp [hd]⟩
    | none =>
      cases upstream with
      | ok tree => exact ⟨tree, by simp [hd]⟩
      | error e =>
        cases hd2 : (getWithFallback s now
            (generateStaleKey "availability" [placeId, dateStr]) none).data with
        | some d => exact ⟨d, by simp [hd, hd2]⟩
        | none => exact ⟨emptyAvailability, by simp [hd, hd2]⟩
  · intro hfresh hstale
    unfold handlerExecute
    simp [getWithFallback, hfresh, hstale, truthy]

/-- Witness for C7 at a concrete input. -/
theorem handlerExecute_never_fails_witness :
    (∃ v, (handlerExecute [] 0 "P" "2024-06-01" (.ok "[1]")).1 = Except.ok v) ∧
    (handlerExecute [] 0 "P" "2024-06-01" (.error ())).1 =
      Except.ok emptyAvailability := by
  have h := handlerExecute_never_fails [] 0 "P" "2024-06-01" (.ok "[1]")
  exact ⟨h.1, h.2 (by decide) (by decide)⟩

/-! ### Claim C9 -/

/-- **C9.**  The handler answers from the composite availability entry
`availability:<placeId>:<yyyy-mm-dd>` (with stale mirror
`availability:stale:<placeId>:<yyyy-mm-dd>`): when either tier holds data
the query returns it without entering the upstream fetch path and without
writing; on a miss it assembles the tree upstream and writes it back
under the composite key with fresh TTL `TTL_CONFIG AVAILABILITY = 180` s
and stale TTL `STALE_TTL = 7200` s, after which any query inside the
fresh window is answered entirely from the composite entry (no upstream
call), and the stale mirror still serves the tree until `STALE_TTL`
expires. -/
theorem handler_composite_cache (s : RedisStore) (now : Nat)
    (placeId dateStr tree : String) (htree : tree ≠ "") :
    (∀ (u : Except Unit String) (d : String),
      (getWithFallback s now (generateKey "availability" [placeId, dateStr])
        (some (generateStaleKey "availability" [placeId, dateStr]))).data = some d →
      handlerExecute s now placeId dateStr u = (Except.ok d, s, false)) ∧
    ((getWithFallback s now (generateKey "availability" [placeId, dateStr])
        (some (generateStaleKey "availability" [placeId, dateStr]))).data = none →
      handlerExecute s now placeId dateStr (.ok tree) =
        (Except.ok tree,
         setWithIntelligentTTL s now (generateKey "availability" [placeId, dateStr])
           tree .AVAILABILITY (some (generateStaleKey "availability" [placeId, dateStr])),
         true) ∧
      (∀ (t : Nat) (u : Except Unit String), t < now + TTL_CONFIG .AVAILABILITY →
        handlerExecute
          (setWithIntelligentTTL s now (generateKey "availability" [placeId, dateStr])
            tree .AVAILABILITY
            (some (generateStaleKey "availability" [placeId, dateStr])))
          t placeId dateStr u =
        (Except.ok tree,
         setWithIntelligentTTL s now (generateKey "availability" [placeId, dateStr])
           tree .AVAILABILITY (some (generateStaleKey "availability" [placeId, dateStr])),
         false)) ∧
      (∀ t : Nat, now + TTL_CONFIG .AVAILABILITY ≤ t → t < now + STALE_TTL →
        getWithFallback
          (setWithIntelligentTTL s now (generateKey "availability" [placeId, dateStr])
            tree .AVAILABILITY
            (some (generateStaleKey "availability" [placeId, dateStr])))
          t (generateKey "availability" [placeId, dateStr])
          (some (generateStaleKey "availability" [placeId, dateStr])) =
        ⟨some tree, true⟩)) ∧
    generateKey "availability" [placeId, dateStr] =
      "availability:" ++ (placeId ++ (":" ++ dateStr)) ∧
    generateStaleKey "availability" [placeId, dateStr] =
      "availability:stale:" ++ (placeId ++ (":" ++ dateStr)) ∧
    TTL_CONFIG .AVAILABILITY = 180 ∧ STALE_TTL = 7200 := by
  have hne := generateKey_ne_generateStaleKey "availability" [placeId, dateStr]
  obtain ⟨hf, hs⟩ := setIntelligent_reads s now
    (generateKey "availability" [placeId, dateStr])
    (generateStaleKey "availability" [placeId, dateStr]) tree .AVAILABILITY hne
  refine ⟨?_, ?_, ?_, ?_, rfl, rfl⟩
  · intro u d hd
    unfold handlerExecute
    simp [hd]
  · intro hmiss
    refine ⟨by unfold handlerExecute; simp [hmiss], ?_, ?_⟩
    · intro t u ht
      have hget : getWithFallback
          (setWithIntelligentTTL s now (generateKey "availability" [placeId, dateStr])
            tree .AVAILABILITY
            (some (generateStaleKey "availability" [placeId, dateStr])))
          t (generateKey "availability" [placeId, dateStr])
          (some (generateStaleKey "availability" [placeId, dateStr])) =
          ⟨some tree, false⟩ := by
        simp [getWithFallback, hf t, ht, truthy, htree]
      unfold handlerExecute
      simp [hget]
    · intro t ht1 ht2
      have hdead : ¬ t < now + TTL_CONFIG .AVAILABILITY := by omega
      simp [getWithFallback, hf t, hs t, hdead, ht2, truthy, htree]
  · simp [generateKey, joinColon, String.append_assoc]
  · simp [generateStaleKey, joinColon, String.append_assoc]

/-- Witness for C9 at a concrete input. -/
theorem handler_composite_cache_witness :
    handlerExecute [] 0 "P" "2024-06-01" (.ok "[7]") =
      (Except.ok "[7]",
       setWithIntelligentTTL [] 0 (generateKey "availability" ["P", "2024-06-01"])
         "[7]" .AVAILABILITY (some (generateStaleKey "availability" ["P", "2024-06-01"])),
       true) ∧
    handlerExecute
        (setWithIntelligentTTL [] 0 (generateKey "availability" ["P", "2024-06-01"])
          "[7]" .AVAILABILITY (some (generateStaleKey "availability" ["P", "2024-06-01"])))
        100 "P" "2024-06-01" (.error ()) =
      (Except.ok "[7]",
       setWithIntelligentTTL [] 0 (generateKey "availability" ["P", "2024-06-01"])
         "[7]" .AVAILABILITY (some (generateStaleKey "availability" ["P", "2024-06-01"])),
       false) := by
  have h := handler_composite_cache [] 0 "P" "2024-06-01" "[7]" (by decide)
  have h2 := (h.2.1 (by decide))
  exact ⟨h2.1, h2.2.1 100 (.error ()) (by decide)⟩

end ATC
